import Mathlib

/-!
# Verification of the `mpp` assembler

Shallow embedding of the `mpp` assembler (an assembler for a custom 8-bit
microprocessor ISA) and proofs about it.  The Lean definitions below follow
the Rust source file by file:

* `src/intel/token.rs`  — token model, primitive / mnemonic / port / register
  parsing, number grammar;
* `src/intel/instruction.rs` — the bit-packed instruction encoder;
* `src/lexer.rs`        — the character-level scanner;
* `src/parser.rs`       — pass 1 (statement translation) and pass 2
  (address resolution);
* `src/assembly.rs`     — the pipeline driver and the Logisim hex formatter.

Machine integers are modelled as `Nat` with explicit reductions: `u8` / `u16`
casts are `% 256` / `% 65536`, and the `usize` subtraction performed by the
lexer for comma spans is modelled with wrap-around at `2 ^ 64` (the release
build's overflow behaviour; a checked build panics at the same spot).
`unreachable!` / index-out-of-bounds panics of the Rust code are modelled
explicitly by an `Option` layer or a `crash` error value, never silently
dropped.
-/

namespace Mpp

/-! ## Error model (`src/error.rs`, `src/intel/token.rs`) -/

/-- `TokenizingError` of `src/intel/token.rs`. -/
inductive TokenizingError where
  | BadArchitecture
  | BadLabel
  | BadMemory
  | BadNumber
  | BadPort
  | HighByte
  | UnknownToken
deriving DecidableEq, Repr

/-- `ErrorCode` of `src/error.rs` (the `Io` wrapper is omitted: no claim and
no core code path constructs it). -/
inductive ErrorCode where
  | BadOrigin
  | BadDestination
  | ExcessiveOperands (req : Nat)
  | MultipleMnemonics
  | NoLabel
  | NoMnemonic
  | NotEnoughOperands (found req : Nat)
  | RedefinedLabel
  | UnexpectedComma
  | UnexpectedLabel
  | UnknownLabel (label : String)
  | Token (err : TokenizingError)
deriving DecidableEq, Repr

/-! ## Token model (`src/intel/token.rs`) -/

/-- `Mnemonic` of `src/intel/token.rs`. -/
inductive Mnemonic where
  | Add | Sub | Or | And | Xor | Not | Mov | Inc
  | Jmp | Jmpc | Jmpz | Call | Ret | Push | Pop | Pusha | Popa
deriving DecidableEq, Repr

/-- `Mnemonic::operands_required`. -/
def Mnemonic.operandsRequired : Mnemonic → Nat
  | .Add | .Sub | .Or | .And | .Xor | .Not | .Mov | .Inc => 2
  | .Jmp | .Jmpc | .Jmpz | .Call | .Push | .Pop => 1
  | _ => 0

/-- `Port` of `src/intel/token.rs`: I/O port with its number (a `u8` in the
source; the parser only ever constructs `0..=3`). -/
inductive Port where
  | Input (n : Nat)
  | Output (n : Nat)
deriving DecidableEq, Repr

/-- `Port::port_number`. -/
def Port.portNumber : Port → Nat
  | .Input n => n
  | .Output n => n

/-- `Register` of `src/intel/token.rs`. -/
inductive Register where
  | B | C | D | E
deriving DecidableEq, Repr

/-- `Primitive` of `src/intel/token.rs`. -/
inductive Primitive where
  | Number (n : Nat)
  | Port (p : Port)
  | Register (r : Register)
  | Accumulator
  | Memory (addr : Nat)
  | DynamicMemory (r : Register)
  | DynamicMemoryAccumulator
  | Label (name : String)
deriving DecidableEq, Repr

/-- `TokenKind` of `src/intel/token.rs`. -/
inductive TokenKind where
  | Label (name : String)
  | Mnemonic (m : Mnemonic)
  | Operand (p : Primitive)
  | Comma
  | Error
deriving DecidableEq, Repr

/-- `Token` of `src/intel/token.rs`: a kind, a half-open span `[start, stop)`
of character columns within the line, and the 1-based line number. -/
structure Token where
  kind : TokenKind
  spanStart : Nat
  spanStop : Nat
  line : Nat
deriving DecidableEq, Repr

/-! ## Character helpers

The Rust code classifies characters with `char::is_ascii_digit`,
`char::to_digit`, `char::to_ascii_lowercase` and (in the lexer)
`char::is_whitespace`; the whitespace model below covers the ASCII
whitespace characters, which are the only ones the claims exercise. -/

def isAsciiDigit (c : Char) : Bool :=
  '0' ≤ c && c ≤ '9'

/-- `char::to_digit(radix)`: value of a digit or letter, if below the radix. -/
def charToDigit (c : Char) (radix : Nat) : Option Nat :=
  let v? : Option Nat :=
    if '0' ≤ c && c ≤ '9' then some (c.toNat - 48)
    else if 'a' ≤ c && c ≤ 'z' then some (c.toNat - 97 + 10)
    else if 'A' ≤ c && c ≤ 'Z' then some (c.toNat - 65 + 10)
    else none
  match v? with
  | some v => if v < radix then some v else none
  | none => none

/-- `char::to_ascii_lowercase`. -/
def toAsciiLowercase (c : Char) : Char :=
  if 'A' ≤ c && c ≤ 'Z' then Char.ofNat (c.toNat + 32) else c

/-- `char::is_whitespace`, restricted to the ASCII whitespace characters. -/
def isRustWhitespace (c : Char) : Bool :=
  c = ' ' || c = '\t' || c = '\n' || c = '\r' || c = '\x0b' || c = '\x0c'

/-! ## Number grammar (`try_to_number` in `src/intel/token.rs`) -/

/-- `fold_byte` inside `try_to_number`: fold digits in the given radix over a
`u32` accumulator (wrap-around at `2 ^ 32`), then `try_into` a `u8`. -/
def foldByte (src : List Char) (radix : Nat) : Option Nat :=
  let rec go (cs : List Char) (num : Nat) : Option Nat :=
    match cs with
    | [] => some num
    | c :: rest =>
      match charToDigit c radix with
      | some d => go rest ((num * radix + d) % 2 ^ 32)
      | none => none
  match go src 0 with
  | some num => if num ≤ 255 then some num else none
  | none => none

/-- `try_to_number` of `src/intel/token.rs`.  Input is the token's character
list; the byte-level slice patterns of the Rust code coincide with the
character-level patterns here because the discriminating characters are all
ASCII. -/
def tryToNumber (src : List Char) : Option Nat :=
  let isComplement := src.head? = some '-'
  let src := if isComplement || src.head? = some '+' then src.tail else src
  let byte :=
    if src.getLast? = some 'b' then foldByte src.dropLast 2
    else if src.getLast? = some 'd' then foldByte src.dropLast 10
    else if src.getLast? = some 'h' then foldByte src.dropLast 16
    else
      match src with
      | '0' :: 'b' :: tail => foldByte tail 2
      | '0' :: 'x' :: tail => foldByte tail 16
      | _ => none
  if isComplement then byte.map (fun b => (256 - b) % 256) else byte

/-! ## String → token parsing (`FromStr` impls in `src/intel/token.rs`) -/

/-- `Port::from_str`: the last character must be a digit `0..=3`
(`4..=9` is `BadPort`), and the prefix must be `in` or `out`. -/
def portFromStr (src : List Char) : Except TokenizingError Port := do
  let num ←
    match src.getLast? with
    | some c =>
      if '0' ≤ c && c ≤ '3' then pure (c.toNat - 48)
      else if '4' ≤ c && c ≤ '9' then throw TokenizingError.BadPort
      else throw TokenizingError.UnknownToken
    | none => throw TokenizingError.UnknownToken
  if src.dropLast = "in".toList then pure (Port.Input num)
  else if src.dropLast = "out".toList then pure (Port.Output num)
  else throw TokenizingError.UnknownToken

/-- `Register::from_str`. -/
def registerFromStr (src : List Char) : Except TokenizingError Register :=
  if ["rbx", "rcx", "rdx", "rex", "ebx", "ecx", "edx", "eex",
      "bx", "cx", "dx", "ex"].any (fun s => src = s.toList) then
    throw TokenizingError.BadArchitecture
  else if ["bh", "ch", "dh", "eh"].any (fun s => src = s.toList) then
    throw TokenizingError.HighByte
  else if src = "bl".toList then pure Register.B
  else if src = "cl".toList then pure Register.C
  else if src = "dl".toList then pure Register.D
  else if src = "el".toList then pure Register.E
  else throw TokenizingError.UnknownToken

/-- `Primitive::is_label`: must not start with an ASCII digit, and every
character must be ASCII alphanumeric or `_`. -/
def isLabelStr (src : List Char) : Bool :=
  match src.head? with
  | some c => if isAsciiDigit c then false
              else src.all (fun ch => ch.isAlphanum || ch = '_')
  | none => src.all (fun ch => ch.isAlphanum || ch = '_')

/-- `Primitive::from_str`.  The byte-slice patterns of the Rust code are
rendered on character lists; the two coincide because every discriminating
character (`+`, `-`, digits, quotes, brackets, the fixed spellings) is
ASCII.  The `[` `]` case recurses on the bracketed interior, which is two
characters shorter; recursion is driven by a fuel bound on the length so
that the definition reduces structurally (`primitiveFromStr` below always
supplies enough fuel, so the fuel-exhaustion branch is dead code). -/
def primitiveFromStrF : Nat → List Char → Except TokenizingError Primitive
  | 0, _ => throw TokenizingError.UnknownToken
  | fuel + 1, src =>
  -- Raw number: first character after an optional sign is an ASCII digit
  if (match src with
      | '+' :: head :: _ => isAsciiDigit head
      | '-' :: head :: _ => isAsciiDigit head
      | head :: _ => isAsciiDigit head
      | [] => false) then
    match tryToNumber src with
    | some num => pure (Primitive.Number num)
    | none => throw TokenizingError.BadNumber
  -- ASCII character literal (a failed guard falls through to the later arms)
  else if (match src with
           | ['"', ch, '"'] => decide (ch.toNat < 128)
           | ['\'', ch, '\''] => decide (ch.toNat < 128)
           | _ => false) then
    match src with
    | [_, ch, _] => pure (Primitive.Number ch.toNat)
    | _ => throw TokenizingError.UnknownToken
  else
      -- Accumulator and rejected architectures
      if src = "rax".toList || src = "eax".toList || src = "ax".toList then
        throw TokenizingError.BadArchitecture
      else if src = "ah".toList then throw TokenizingError.HighByte
      else if src = "al".toList then pure Primitive.Accumulator
      -- Memory location: `[` ... `]`
      else if 2 ≤ src.length ∧ src.head? = some '[' ∧ src.getLast? = some ']' then
        match primitiveFromStrF fuel src.tail.dropLast with
        | .ok (Primitive.Number byte) => pure (Primitive.Memory (byte % 65536))
        | .ok (Primitive.Register reg) => pure (Primitive.DynamicMemory reg)
        | .ok Primitive.Accumulator => pure Primitive.DynamicMemoryAccumulator
        | _ => throw TokenizingError.BadMemory
      else
        -- Port, then register, then label
        match portFromStr src with
        | .ok port => pure (Primitive.Port port)
        | .error TokenizingError.BadPort => throw TokenizingError.BadPort
        | _ =>
          match registerFromStr src with
          | .ok reg => pure (Primitive.Register reg)
          | .error TokenizingError.UnknownToken =>
            if isLabelStr src then pure (Primitive.Label (String.mk src))
            else throw TokenizingError.BadLabel
          | .error err => throw err

/-- `Primitive::from_str` with the fuel bound instantiated: the interior of a
bracket pair is two characters shorter, so `length + 1` steps always
suffice. -/
def primitiveFromStr (src : List Char) : Except TokenizingError Primitive :=
  primitiveFromStrF (src.length + 1) src

/-- The accepted mnemonic spellings after `enum_utils`' case-insensitive
`FromStr` derivation: the variant name lowercased, except `Jmpc` (renamed
`jc`) and `Jmpz` (renamed `je`, aliased `jz`). -/
def mnemonicFromStr (src : List Char) : Except Unit Mnemonic :=
  let s := String.mk (src.map toAsciiLowercase)
  if s = "add" then pure .Add
  else if s = "sub" then pure .Sub
  else if s = "or" then pure .Or
  else if s = "and" then pure .And
  else if s = "xor" then pure .Xor
  else if s = "not" then pure .Not
  else if s = "mov" then pure .Mov
  else if s = "inc" then pure .Inc
  else if s = "jmp" then pure .Jmp
  else if s = "jc" then pure .Jmpc
  else if s = "je" || s = "jz" then pure .Jmpz
  else if s = "call" then pure .Call
  else if s = "ret" then pure .Ret
  else if s = "push" then pure .Push
  else if s = "pop" then pure .Pop
  else if s = "pusha" then pure .Pusha
  else if s = "popa" then pure .Popa
  else throw ()

/-- `TokenKind::from_str`: comma, then label declaration (the stored name
string keeps the trailing colon, exactly as `Self::Label(src.into())` does),
then mnemonic, then primitive operand. -/
def tokenKindFromStr (src : List Char) : Except TokenizingError TokenKind :=
  if src = [','] then pure TokenKind.Comma
  else if src.getLast? = some ':' then
    if isLabelStr src.dropLast then pure (TokenKind.Label (String.mk src))
    else throw TokenizingError.BadLabel
  else
    match mnemonicFromStr src with
    | .ok m => pure (TokenKind.Mnemonic m)
    | .error _ =>
      match primitiveFromStr src with
      | .ok p => pure (TokenKind.Operand p)
      | .error e => throw e

/-! ## Instruction encoder (`src/intel/instruction.rs`) -/

/-- `Instruction` of `src/intel/instruction.rs`: decoder page, bit-packed
main byte, optional ROM byte, optional RAM word. -/
structure Instruction where
  decoderPage : Nat
  main : Nat
  rom : Option Nat
  ram : Option Nat
deriving DecidableEq, Repr

namespace Instruction

/-- `Instruction::DECODER_PAGE_TURN`. -/
def DECODER_PAGE_TURN : Nat := 0b00000111

/-- `Instruction::new`. -/
def new : Instruction := ⟨0, 0, none, none⟩

/-- `Instruction::encode_main`: `main &= and; main |= or`. -/
def encodeMain (i : Instruction) (and or : Nat) : Instruction :=
  { i with main := (i.main &&& and) ||| or }

/-- `Instruction::encode_register`: register selector into bits 4–3. -/
def encodeRegister (i : Instruction) (reg : Register) : Instruction :=
  let (and, or) :=
    match reg with
    | .B => (0b11100111, 0b00000000)
    | .C => (0b11101111, 0b00001000)
    | .D => (0b11110111, 0b00010000)
    | .E => (0b11111111, 0b00011000)
  i.encodeMain and or

/-- `Instruction::encode_port_number`: port selector into bits 4–3; a port
number outside `0..=3` hits `unreachable!`, modelled as `none`. -/
def encodePortNumber (i : Instruction) (port : Port) : Option Instruction :=
  match port.portNumber with
  | 0 => some (i.encodeMain 0b11100111 0b00000000)
  | 1 => some (i.encodeMain 0b11101111 0b00001000)
  | 2 => some (i.encodeMain 0b11110111 0b00010000)
  | 3 => some (i.encodeMain 0b11111111 0b00011000)
  | _ => none

/-- `Instruction::encode_port`: port number (propagating its panic), then
the fixed port data flow. -/
def encodePort (i : Instruction) (port : Port) : Option Instruction :=
  match i.encodePortNumber port with
  | none => none
  | some i =>
    let (and, or) :=
      match port with
      | .Output _ => (0b11111011, 0b00000011)
      | .Input _ => (0b11111110, 0b00000110)
    some (i.encodeMain and or)

/-- `Instruction::encode_mnemonic`. -/
def encodeMnemonic (i : Instruction) (mnemonic : Mnemonic) : Instruction :=
  let (and, or, page) :=
    match mnemonic with
    | .Add => (0b00011111, 0b00000000, 0)
    | .Sub => (0b00111111, 0b00100000, 0)
    | .And => (0b01011111, 0b01000000, 0)
    | .Or => (0b01111111, 0b01100000, 0)
    | .Xor => (0b10011111, 0b10000000, 0)
    | .Not => (0b10111111, 0b10100000, 0)
    | .Mov => (0b11011111, 0b11000000, 0)
    | .Inc => (0b11111111, 0b11100000, 0)
    | .Jmp => (0b11111011, 0b00000011, 1)
    | .Jmpc => (0b11111100, 0b00000100, 1)
    | .Jmpz => (0b11111101, 0b00000101, 1)
    | .Call => (0b11111110, 0b00000110, 1)
    | .Ret => (0b11111000, 0b00000000, 2)
    | .Push => (0b11111011, 0b00000011, 2)
    | .Pop => (0b11111100, 0b00000100, 2)
    | .Pusha => (0b11111101, 0b00000101, 2)
    | .Popa => (0b11111110, 0b00000110, 2)
  { i.encodeMain and or with decoderPage := page }

/-- `self.decoder_page = page`, the final assignment of
`try_encode_data_flow` before `encode_main`. -/
def withPage (i : Instruction) (page : Nat) : Instruction :=
  { i with decoderPage := page }

/-- `Instruction::try_encode_data_flow`.  `none` models the `unreachable!`
panic inside `encode_port_number`; `some (.error c)` is the Rust `Err(c)`. -/
def tryEncodeDataFlow (i : Instruction) (origin dest : Primitive) :
    Option (Except ErrorCode Instruction) :=
  match origin with
  -- Accumulator origin
  | .Accumulator =>
    match dest with
    | .Accumulator =>
      some (.ok ((i.encodeMain 0b11111000 0b00000000).withPage 0))
    | .Register reg =>
      some (.ok (((i.encodeRegister reg).encodeMain 0b11111001 0b00000001).withPage 0))
    | .Memory ram =>
      some (.ok (({ i with ram := some ram }).encodeMain 0b11111010 0b00000010 |>.withPage 0))
    | .Port (Port.Output n) =>
      match i.encodePort (Port.Output n) with
      | some i => some (.ok ((i.encodeMain 0b11111011 0b00000011).withPage 0))
      | none => none
    | .DynamicMemory reg =>
      some (.ok (((i.encodeRegister reg).encodeMain 0b11111010 0b00000010).withPage 2))
    | _ => some (.error ErrorCode.BadDestination)
  -- Register origin
  | .Register reg =>
    match dest with
    | .Accumulator =>
      some (.ok (((i.encodeRegister reg).encodeMain 0b11111100 0b00000100).withPage 0))
    | _ => some (.error ErrorCode.BadDestination)
  -- Memory location origin
  | .Memory ram =>
    match dest with
    | .Accumulator =>
      some (.ok (({ i with ram := some ram }).encodeMain 0b11111101 0b00000101 |>.withPage 0))
    | _ => some (.error ErrorCode.BadDestination)
  -- Input origin
  | .Port (Port.Input n) =>
    match i.encodePort (Port.Input n) with
    | some i =>
      match dest with
      | .Accumulator => some (.ok ((i.encodeMain 0b11111110 0b00000110).withPage 0))
      | _ => some (.error ErrorCode.BadDestination)
    | none => none
  -- Literal origin
  | .Number rom =>
    let i := { i with rom := some rom }
    match dest with
    | .Accumulator => some (.ok ((i.encodeMain 0b11111000 0b00000000).withPage 1))
    | .Register reg =>
      some (.ok (((i.encodeRegister reg).encodeMain 0b11111001 0b00000001).withPage 1))
    | .Memory ram =>
      some (.ok (({ i with ram := some ram }).encodeMain 0b11111010 0b00000010 |>.withPage 1))
    | _ => some (.error ErrorCode.BadDestination)
  -- Dynamic memory origin
  | .DynamicMemory reg =>
    match dest with
    | .Accumulator =>
      some (.ok (((i.encodeRegister reg).encodeMain 0b11111001 0b00000001).withPage 2))
    | _ => some (.error ErrorCode.BadDestination)
  -- Other origins
  | _ => some (.error ErrorCode.BadOrigin)

/-- `Instruction::as_bytes`: `decoder_page` page-turn bytes, the main byte,
the ROM byte when present, the RAM word big-endian when present.  A RAM word
is a `u16`, emitted as `to_be_bytes`. -/
def asBytes (i : Instruction) : List Nat :=
  List.replicate i.decoderPage DECODER_PAGE_TURN ++ [i.main] ++
    (match i.rom with
     | some byte => [byte]
     | none => []) ++
    (match i.ram with
     | some word => [(word / 256) % 256, word % 256]
     | none => [])

end Instruction

/-! ## Error values and pipeline outcomes -/

/-- `AssemblyError` of `src/error.rs`: the offending token and a code. -/
structure AssemblyError where
  token : Token
  code : ErrorCode
deriving DecidableEq, Repr

/-- Outcome of a failing run: a structured `AssemblyError`, or a Rust panic
(`unreachable!`, slice index out of bounds, a failing `unwrap`/`expect`). -/
inductive AsmError where
  | err (e : AssemblyError)
  | crash
deriving DecidableEq, Repr

/-! ## Lexer (`src/lexer.rs`) -/

/-- One element sent over the lexer → parser channel:
`Ok(Token)` or `Err(EOL)`. -/
inductive LexItem where
  | tok (t : Token)
  | eol
deriving DecidableEq, Repr

/-- `str::lines`: split at `\n`, strip the `\r` of a `\r\n` pair (a `\r` not
followed by `\n` is kept), and do not yield a final empty segment. -/
def rustLines (src : String) : List (List Char) :=
  let rec go : List Char → List Char → List (List Char)
    | [], cur => [cur]
    | '\n' :: rest, cur =>
      (if cur.getLast? = some '\r' then cur.dropLast else cur) :: go rest []
    | c :: rest, cur => go rest (cur ++ [c])
  let parts := go src.data []
  match parts.getLast? with
  | some [] => parts.dropLast
  | _ => parts

/-- `Token::try_send` (`src/intel/token.rs`): an empty accumulator sends
nothing; otherwise parse it into a kind and build the token, or report the
tokenizing error on an `Error`-kind token carrying the same span. -/
def trySend (acc : List Char) (spanStart spanStop line : Nat) :
    Except (Token × TokenizingError) (Option Token) :=
  if acc = [] then .ok none
  else
    match tokenKindFromStr acc with
    | .error e => .error (⟨TokenKind.Error, spanStart, spanStop, line⟩, e)
    | .ok kind => .ok (some ⟨kind, spanStart, spanStop, line⟩)

/-- The per-line character walk of `lexer::scan`.  `chars` already carries
the trailing virtual space.  The comma span start is the `usize` expression
`col - 1`, which wraps at `2 ^ 64` (and panics in a checked build) when the
comma is the first character of the line; the second `try_send` of the comma
arm is `.unwrap()`ed, so a flush failure there is a panic, not an error. -/
def scanLine (lineNo : Nat) : List Char → Nat → List Char →
    List LexItem × Option AsmError
  | [], _, _ => ([], none)
  | ch :: rest, col, token =>
    if ch = ';' then
      match trySend token (col - token.length) col lineNo with
      | .error (t, e) => ([], some (.err ⟨t, .Token e⟩))
      | .ok none => ([], none)
      | .ok (some t) => ([LexItem.tok t], none)
    else if ch = ',' then
      match trySend token (col - token.length) col lineNo with
      | .error _ => ([], some .crash)
      | .ok flushed =>
        let flushItems := match flushed with
          | some t => [LexItem.tok t]
          | none => []
        let commaTok : Token := ⟨TokenKind.Comma, (col + (2 ^ 64 - 1)) % 2 ^ 64, col, lineNo⟩
        let (items, fail) := scanLine lineNo rest (col + 1) []
        (flushItems ++ [LexItem.tok commaTok] ++ items, fail)
    else if isRustWhitespace ch then
      match trySend token (col - token.length) col lineNo with
      | .error (t, e) => ([], some (.err ⟨t, .Token e⟩))
      | .ok none => scanLine lineNo rest (col + 1) []
      | .ok (some t) =>
        let (items, fail) := scanLine lineNo rest (col + 1) []
        (LexItem.tok t :: items, fail)
    else
      scanLine lineNo rest (col + 1) (token ++ [toAsciiLowercase ch])

/-- One full line of `lexer::scan`: walk the characters (with the trailing
virtual space), then send the `EOL` sentinel — unless the walk failed, in
which case the lexer stops without the sentinel. -/
def scanLineItems (lineNo : Nat) (line : List Char) : List LexItem × Option AsmError :=
  match scanLine lineNo (line ++ [' ']) 0 [] with
  | (items, some f) => (items, some f)
  | (items, none) => (items ++ [LexItem.eol], none)

/-- `lexer::scan`: all lines in order, stopping at the first failure. -/
def scan (src : String) : List LexItem × Option AsmError :=
  let rec go : List (List Char) → Nat → List LexItem × Option AsmError
    | [], _ => ([], none)
    | line :: restLines, lineNo =>
      match scanLineItems lineNo line with
      | (items, some f) => (items, some f)
      | (items, none) =>
        let (moreItems, fail) := go restLines (lineNo + 1)
        (items ++ moreItems, fail)
  go (rustLines src) 1

/-! ## Parser pass 1 and pass 2 (`src/parser.rs`) -/

/-- `ByteCode` of `src/parser.rs`: a finished byte, or a pending label
address (one cell of the intermediate vector). -/
inductive ByteCode where
  | Byte (b : Nat)
  | Addr (t : Token) (label : String)
deriving DecidableEq, Repr

/-- The per-line mutable state of `translate_buffer`, plus the label map it
updates. -/
structure LineAcc where
  labels : List (String × Nat)
  operandsReq : Nat
  operandsFound : Nat
  slot0 : Option (Token × Primitive)
  slot1 : Option (Token × Primitive)
  stmtMnemonic : Option (Token × Mnemonic)
deriving Repr

/-- One iteration of the `for token in buffer.drain(..)` loop of
`translate_buffer`.  `byteLen` is `byte_code.len()` (constant during the
loop); a label records `byte_code.len() as u16`, i.e. the cell count reduced
mod `2 ^ 16`.  The third operand hits `operands[2]` and panics. -/
def stepToken (byteLen : Nat) (acc : LineAcc) (token : Token) :
    Except AsmError LineAcc :=
  match token.kind with
  | .Label name =>
    match acc.labels.lookup name with
    | some _ => .error (.err ⟨token, .RedefinedLabel⟩)
    | none => .ok { acc with labels := acc.labels ++ [(name, byteLen % 65536)] }
  | .Mnemonic m =>
    match acc.stmtMnemonic with
    | some _ => .error (.err ⟨token, .MultipleMnemonics⟩)
    | none =>
      .ok { acc with operandsReq := m.operandsRequired,
                     stmtMnemonic := some (token, m) }
  | .Operand p =>
    match acc.operandsFound with
    | 0 => .ok { acc with slot0 := some (token, p), operandsFound := 1 }
    | 1 => .ok { acc with slot1 := some (token, p), operandsFound := 2 }
    | _ => .error .crash
  | .Comma =>
    match acc.stmtMnemonic with
    | none => .error (.err ⟨token, .NoMnemonic⟩)
    | some (mnemonicToken, _) =>
      if acc.operandsReq = acc.operandsFound then
        .error (.err ⟨mnemonicToken, .ExcessiveOperands acc.operandsReq⟩)
      else if acc.operandsFound = 0 then
        .error (.err ⟨token, .UnexpectedComma⟩)
      else .ok acc
  | .Error => .error .crash

/-- The statement-emission tail of `translate_buffer`, after the token loop:
validate arity and emit the statement's bytes / placeholder.  Source operand
order is *(destination, origin)*; the zero-operand arm `[None, None] => ()`
emits nothing. -/
def finishLine (acc : LineAcc) (byteCode : List ByteCode) :
    Except AsmError (List ByteCode × List (String × Nat)) :=
  match acc.stmtMnemonic with
  | none => .ok (byteCode, acc.labels)
  | some (mnemonicToken, mnemonic) =>
    if acc.operandsFound ≠ acc.operandsReq then
      .error (.err ⟨mnemonicToken, .NotEnoughOperands acc.operandsFound acc.operandsReq⟩)
    else
      let inst := Instruction.new.encodeMnemonic mnemonic
      match acc.slot0, acc.slot1 with
      | some (destToken, dest), some (originToken, origin) =>
        match inst.tryEncodeDataFlow origin dest with
        | some (.ok inst) =>
          .ok (byteCode ++ inst.asBytes.map ByteCode.Byte, acc.labels)
        | some (.error ErrorCode.BadOrigin) => .error (.err ⟨originToken, .BadOrigin⟩)
        | some (.error ErrorCode.BadDestination) => .error (.err ⟨destToken, .BadDestination⟩)
        | some (.error _) => .error .crash
        | none => .error .crash
      | some (labelToken, Primitive.Label label), none =>
        .ok (byteCode ++ inst.asBytes.map ByteCode.Byte ++ [ByteCode.Addr labelToken label],
             acc.labels)
      | some _, none => .error (.err ⟨mnemonicToken, .NoLabel⟩)
      | none, some _ => .error .crash
      | none, none => .ok (byteCode, acc.labels)

/-- `translate_buffer`: drain the line's tokens through `stepToken`, then
finish the line with `finishLine`. -/
def translateBuffer (buffer : List Token) (byteCode : List ByteCode)
    (labels : List (String × Nat)) :
    Except AsmError (List ByteCode × List (String × Nat)) :=
  match buffer.foldlM (stepToken byteCode.length) ⟨labels, 0, 0, none, none, none⟩ with
  | .error f => .error f
  | .ok acc => finishLine acc byteCode

/-- `fill_addresses` (pass 2): copy bytes, and expand each `Addr` cell to the
two big-endian bytes of the label's recorded offset, failing on an unknown
label. -/
def fillAddresses (byteCode : List ByteCode) (labels : List (String × Nat)) :
    Except AsmError (List Nat) :=
  byteCode.foldlM
    (fun out cell =>
      match cell with
      | .Byte b => pure (out ++ [b])
      | .Addr token label =>
        match labels.lookup label with
        | some word => pure (out ++ [word / 256, word % 256])
        | none => throw (.err ⟨token, .UnknownLabel label⟩))
    []

/-- `parser::eval`: buffer tokens until each `EOL`, translate the line, and
at channel close (leftover tokens of an unterminated line are dropped) run
pass 2. -/
def eval (items : List LexItem) : Except AsmError (List Nat) :=
  let rec go : List LexItem → List Token → List ByteCode → List (String × Nat) →
      Except AsmError (List Nat)
    | [], _, byteCode, labels => fillAddresses byteCode labels
    | .tok t :: rest, buffer, byteCode, labels => go rest (buffer ++ [t]) byteCode labels
    | .eol :: rest, buffer, byteCode, labels => do
      let (byteCode, labels) ← translateBuffer buffer byteCode labels
      go rest [] byteCode labels
  go items [] [] []

/-- `Assembly::assemble`: the parser's outcome is inspected first (its error
short-circuits before the lexer is joined); a lexer failure surfaces only
when the parser succeeded.  A lexer panic makes the `join().expect(..)`
panic in turn. -/
def assemble (src : String) : Except AsmError (List Nat) :=
  let (items, lexFail) := scan src
  match eval items with
  | .error e => .error e
  | .ok bytes =>
    match lexFail with
    | some f => .error f
    | none => .ok bytes

/-! ## Logisim hex container (`src/assembly.rs`) -/

/-- `nibble_to_ascii`: lowercase hex digit; a value above 15 hits
`unreachable!`, modelled as `none`. -/
def nibbleToAscii (nibble : Nat) : Option Nat :=
  if nibble ≤ 9 then some (48 + nibble)
  else if nibble ≤ 15 then some (97 + nibble - 10)
  else none

/-- `byte_as_hexadecimal`: the two nibbles of a byte as ASCII. -/
def byteAsHexadecimal (byte : Nat) : Option (Nat × Nat) := do
  pure (← nibbleToAscii (byte >>> 4), ← nibbleToAscii (byte &&& 0xF))

/-- `Assembly::to_logisim`: the replacement buffer — the ASCII header
`v2.0 raw\r\n`, then for each byte its hex digits (high digit dropped when
it is the digit `0`) and a space. -/
def toLogisim (data : List Nat) : Option (List Nat) := do
  let rec go : List Nat → Option (List Nat)
    | [] => some []
    | b :: rest => do
      let (hi, lo) ← byteAsHexadecimal b
      let tail ← go rest
      pure ((if hi ≠ 48 then [hi] else []) ++ [lo, 0x20] ++ tail)
  let body ← go data
  pure ([118, 50, 46, 48, 32, 114, 97, 119, 13, 10] ++ body)

/-! ## Spec-side definitions

These definitions follow the specification's wording (they are the
comparison side of the refinement claims); they are deliberately written
with arithmetic field updates rather than the source's AND/OR masks. -/

/-- Extract the structured error code of a pipeline outcome, if any. -/
def errCodeOf : Except AsmError (List Nat) → Option ErrorCode
  | .error (.err e) => some e.code
  | _ => none

/-- Extract the offending token of a pipeline outcome, if any. -/
def errTokenOf : Except AsmError (List Nat) → Option Token
  | .error (.err e) => some e.token
  | _ => none

/-- The error codes that `translate_buffer` can only raise while handling a
`Comma` token. -/
def commaOnlyCode : ErrorCode → Prop
  | .NoMnemonic => True
  | .UnexpectedComma => True
  | .ExcessiveOperands _ => True
  | _ => False

instance (c : ErrorCode) : Decidable (commaOnlyCode c) := by
  unfold commaOnlyCode
  split <;> infer_instance

/-- Spec §4.2: "each listed pair sets the stated flow bits in bits 2–0" —
replace the low three bits of the main byte. -/
def setFlowBits (main flow : Nat) : Nat :=
  (main / 8) * 8 + flow

/-- Spec §4.2: "encode r into bits 4–3" / "encode n into bits 4–3" —
replace bits 4–3 of the main byte. -/
def setSelectorBits (main sel : Nat) : Nat :=
  (main / 32) * 32 + sel * 8 + main % 8

/-- Spec §4.2: "register … encoding writes bits 4–3 as `00,01,10,11` for
`B/C/D/E`". -/
def registerSelector : Register → Nat
  | .B => 0
  | .C => 1
  | .D => 2
  | .E => 3

/-- The 12-row data-flow table of spec §4.2, written from the spec's words:
flow bits into bits 2–0, the decoder page *replaced* by the stated
override, register / port selector into bits 4–3, `rom` set to the literal
byte and `ram` to the memory word where stated; a listed origin with an
unlisted destination is `BadDestination`, an unlisted origin is
`BadOrigin`. -/
def dataFlowSpecTable (i : Instruction) (origin dest : Primitive) :
    Except ErrorCode Instruction :=
  match origin, dest with
  | .Accumulator, .Accumulator =>
    .ok { i with main := setFlowBits i.main 0b000, decoderPage := 0 }
  | .Accumulator, .Register r =>
    .ok { i with main := setSelectorBits (setFlowBits i.main 0b001) (registerSelector r),
                 decoderPage := 0 }
  | .Accumulator, .Memory m =>
    .ok { i with main := setFlowBits i.main 0b010, decoderPage := 0, ram := some m }
  | .Accumulator, .Port (.Output n) =>
    .ok { i with main := setSelectorBits (setFlowBits i.main 0b011) n, decoderPage := 0 }
  | .Accumulator, .DynamicMemory r =>
    .ok { i with main := setSelectorBits (setFlowBits i.main 0b010) (registerSelector r),
                 decoderPage := 2 }
  | .Register r, .Accumulator =>
    .ok { i with main := setSelectorBits (setFlowBits i.main 0b100) (registerSelector r),
                 decoderPage := 0 }
  | .Memory m, .Accumulator =>
    .ok { i with main := setFlowBits i.main 0b101, decoderPage := 0, ram := some m }
  | .Port (.Input n), .Accumulator =>
    .ok { i with main := setSelectorBits (setFlowBits i.main 0b110) n, decoderPage := 0 }
  | .Number b, .Accumulator =>
    .ok { i with main := setFlowBits i.main 0b000, decoderPage := 1, rom := some b }
  | .Number b, .Register r =>
    .ok { i with main := setSelectorBits (setFlowBits i.main 0b001) (registerSelector r),
                 decoderPage := 1, rom := some b }
  | .Number b, .Memory m =>
    .ok { i with main := setFlowBits i.main 0b010, decoderPage := 1, rom := some b,
                 ram := some m }
  | .DynamicMemory r, .Accumulator =>
    .ok { i with main := setSelectorBits (setFlowBits i.main 0b001) (registerSelector r),
                 decoderPage := 2 }
  | .Accumulator, _ | .Register _, _ | .Memory _, _
  | .Port (.Input _), _ | .Number _, _ | .DynamicMemory _, _ =>
    .error ErrorCode.BadDestination
  | _, _ => .error ErrorCode.BadOrigin

/-- Port numbers appearing in a primitive are in `0..=3` (the only values
the token parser produces, per the data model of spec §3). -/
def portNumsOk : Primitive → Prop
  | .Port p => p.portNumber < 4
  | _ => True

instance (p : Primitive) : Decidable (portNumsOk p) := by
  unfold portNumsOk
  split <;> infer_instance

/-- Spec §6: a byte's hex digit in lowercase ASCII. -/
def specHexDigit (n : Nat) : Nat :=
  if n ≤ 9 then 48 + n else 97 + (n - 10)

/-- Spec §6: the Logisim text for one byte — the hex representation with the
leading nibble omitted when that nibble is zero (one digit below `0x10`,
two digits otherwise), then a space. -/
def specLogisimByte (b : Nat) : List Nat :=
  if b < 16 then [specHexDigit (b % 16), 32]
  else [specHexDigit (b / 16), specHexDigit (b % 16), 32]

/-! ## Theorems -/

/-- C1: the claim says assembling `_start:  jz  _start` succeeds and returns
exactly the bytes `07 05 00 00`.  In fact `TokenKind::from_str` stores the
label declaration's name *with* its trailing colon (`"_start:"`), while the
operand reference parses to `Label "_start"`, so pass 2's lookup fails and
the whole assembly errors with `UnknownLabel "_start"` on the operand token
(columns 13–19 of line 1) — contradicting the repository's own
`test_instructions` test, which asserts these very bytes. -/
theorem jz_self_reference_fails_unknown_label :
    assemble "_start:  jz  _start" =
      .error (.err ⟨⟨.Operand (.Label "_start"), 13, 19, 1⟩, .UnknownLabel "_start"⟩) := by
  rfl

/-- C2: the claim says each placeholder occupies two final byte slots (true
of pass 2) *and* that a label's recorded offset equals the number of bytes
of all preceding statements.  On `jmp a\na:` the first line emits two
`Byte` cells and one `Addr` cell; the label on line 2 is recorded at
`byte_code.len() = 3` (cells, not bytes) under the key `"a:"`, although the
first statement occupies 4 bytes of final output (as the `fillAddresses`
conjunct with a byte-accurate table shows), and resolution of the reference
`a` fails `UnknownLabel` because of the colon-bearing key. -/
theorem placeholder_offset_accounting_bug :
    (scan "jmp a\na:").1 =
      [.tok ⟨.Mnemonic .Jmp, 0, 3, 1⟩, .tok ⟨.Operand (.Label "a"), 4, 5, 1⟩, .eol,
       .tok ⟨.Label "a:", 0, 2, 2⟩, .eol] ∧
    translateBuffer [⟨.Mnemonic .Jmp, 0, 3, 1⟩, ⟨.Operand (.Label "a"), 4, 5, 1⟩] [] [] =
      .ok ([.Byte 7, .Byte 3, .Addr ⟨.Operand (.Label "a"), 4, 5, 1⟩ "a"], []) ∧
    translateBuffer [⟨.Label "a:", 0, 2, 2⟩]
        [.Byte 7, .Byte 3, .Addr ⟨.Operand (.Label "a"), 4, 5, 1⟩ "a"] [] =
      .ok ([.Byte 7, .Byte 3, .Addr ⟨.Operand (.Label "a"), 4, 5, 1⟩ "a"], [("a:", 3)]) ∧
    fillAddresses [.Byte 7, .Byte 3, .Addr ⟨.Operand (.Label "a"), 4, 5, 1⟩ "a"] [("a", 4)] =
      .ok [7, 3, 0, 4] ∧
    assemble "jmp a\na:" =
      .error (.err ⟨⟨.Operand (.Label "a"), 4, 5, 1⟩, .UnknownLabel "a"⟩) :=
  ⟨rfl, rfl, rfl, rfl, rfl⟩

/-- C3: the claim says the plain decimal form `10` parses and that all six
spellings yield `Number 10`.  `try_to_number` has no arm for unsuffixed,
unprefixed digits, so `10` fails `BadNumber` — contradicting the code's own
doc comment on `Primitive::Number` (regex `\d+d?`) and the `BadNumber` help
text ("Decimals *may* have a trailing `d`"); the other five spellings do
yield `Number 10`. -/
theorem plain_decimal_rejected_bad_number :
    primitiveFromStr "10".toList = .error .BadNumber ∧
    primitiveFromStr "10d".toList = .ok (.Number 10) ∧
    primitiveFromStr "0ah".toList = .ok (.Number 10) ∧
    primitiveFromStr "0x0a".toList = .ok (.Number 10) ∧
    primitiveFromStr "1010b".toList = .ok (.Number 10) ∧
    primitiveFromStr "0b1010".toList = .ok (.Number 10) :=
  ⟨rfl, rfl, rfl, rfl, rfl, rfl⟩

/-- C4 (counterexample): assembling `mov bl, cl` does *not* fail with
`BadOrigin`, contrary to the claim. -/
theorem mov_bl_cl_not_bad_origin :
    errCodeOf (assemble "mov bl, cl") ≠ some .BadOrigin := by
  decide

/-- C4 (amended): `mov bl, cl` fails with `BadDestination` — a `Register`
origin is listed in the flow table (row `Register → Acc`), so a
non-accumulator destination is a destination error — and the error is
attributed to the destination token `bl` (columns 4–6 of line 1). -/
theorem mov_bl_cl_bad_destination :
    assemble "mov bl, cl" =
      .error (.err ⟨⟨.Operand (.Register .B), 4, 6, 1⟩, .BadDestination⟩) := by
  rfl

/-- C6: emitting an instruction's bytes produces exactly `decoderPage`
copies of the page-turn byte `0b00000111`, the main byte, the ROM byte when
present, and the RAM word as two big-endian bytes when present — a total
of `page + 1 + has_rom + 2·has_ram` bytes. -/
theorem asBytes_layout (i : Instruction) :
    i.asBytes =
      List.replicate i.decoderPage 0b00000111 ++ [i.main] ++
        (match i.rom with | some b => [b] | none => []) ++
        (match i.ram with | some w => [(w / 256) % 256, w % 256] | none => []) ∧
    i.asBytes.length =
      i.decoderPage + 1 + (match i.rom with | some _ => 1 | none => 0) +
        2 * (match i.ram with | some _ => 1 | none => 0) := by
  obtain ⟨p, m, r, w⟩ := i
  refine ⟨rfl, ?_⟩
  rcases r <;> rcases w <;>
    simp [Instruction.asBytes, Instruction.DECODER_PAGE_TURN]

/-- C7: the claim says `, mov al, al` fails `NoMnemonic` with the error
attributed to the leading comma's span.  The error code is indeed
`NoMnemonic` and the token is the comma token, but its span is computed as
`col - 1 .. col` with `col = 0`: the `usize` subtraction wraps to
`2 ^ 64 - 1 .. 0` (and panics outright in a build with overflow checks), so
the span does not cover the comma at the start of the line. -/
theorem leading_comma_span_underflow :
    assemble ", mov al, al" =
      .error (.err ⟨⟨.Comma, 2 ^ 64 - 1, 0, 1⟩, .NoMnemonic⟩) ∧
    ¬ ((2 ^ 64 - 1, 0) = ((0, 1) : Nat × Nat)) :=
  ⟨rfl, by decide⟩

set_option maxRecDepth 4096 in
/-- Evaluation of `byte_as_hexadecimal` on genuine bytes: the two lowercase
hex digits of the two nibbles. -/
theorem byteAsHexadecimal_eval :
    ∀ b, b < 256 →
      byteAsHexadecimal b = some (specHexDigit (b / 16), specHexDigit (b % 16)) := by
  decide

set_option maxRecDepth 4096 in
/-- The per-byte emission of `to_logisim` (drop the high digit exactly when
it is the ASCII digit `0`) agrees with the spec's one-digit-below-16 rule. -/
theorem logisim_byte_eval :
    ∀ b, b < 256 →
      (if specHexDigit (b / 16) ≠ 48 then [specHexDigit (b / 16)] else []) ++
        [specHexDigit (b % 16), 32] = specLogisimByte b := by
  decide

/-- The body loop of `to_logisim` produces the concatenation of the
spec-side per-byte texts. -/
theorem logisim_go_spec (data : List Nat) (h : ∀ b ∈ data, b < 256) :
    toLogisim.go data = some (data.map specLogisimByte).flatten := by
  induction data with
  | nil => rfl
  | cons b rest ih =>
    have hb : b < 256 := h b (by simp)
    have hrest := ih (fun x hx => h x (by simp [hx]))
    simp only [toLogisim.go, byteAsHexadecimal_eval b hb, hrest, Option.bind_eq_bind,
      Option.some_bind, List.map_cons, List.flatten]
    simp [← logisim_byte_eval b hb]

/-- C8: `to_logisim` replaces the buffer with the ASCII header `v2.0 raw\r\n`
followed, for each input byte in order, by its lowercase hex representation —
one digit when the byte is below `0x10`, two digits otherwise — and a single
space `0x20`, with nothing after the final space. -/
theorem toLogisim_header_and_digits (data : List Nat) (h : ∀ b ∈ data, b < 256) :
    toLogisim data =
      some ([118, 50, 46, 48, 32, 114, 97, 119, 13, 10] ++
        (data.map specLogisimByte).flatten) := by
  simp only [toLogisim, logisim_go_spec data h, Option.bind_eq_bind, Option.some_bind,
    Option.pure_def]

/-- Witness for C8 at the byte vector `[7, 5, 0, 0, 42, 160]`. -/
theorem toLogisim_header_and_digits_witness :
    (∀ b ∈ [7, 5, 0, 0, 42, 160], b < 256) ∧
    toLogisim [7, 5, 0, 0, 42, 160] =
      some ([118, 50, 46, 48, 32, 114, 97, 119, 13, 10] ++
        ([7, 5, 0, 0, 42, 160].map specLogisimByte).flatten) :=
  ⟨by decide, toLogisim_header_and_digits [7, 5, 0, 0, 42, 160] (by decide)⟩

/-- `Except.bind` on an error short-circuits (definitional). -/
theorem except_error_bind {α β γ : Type} (f : γ) (g : α → Except γ β) :
    (Except.error f >>= g) = Except.error f := rfl

/-- `Except.bind` on a success applies the continuation (definitional). -/
theorem except_ok_bind {α β γ : Type} (a : α) (g : α → Except γ β) :
    (Except.ok a >>= g) = g a := rfl

/-- Inverting a structured-error equation: the received code is the literal
one. -/
theorem error_err_code {α : Type} {t : Token} {c : ErrorCode} {e : AssemblyError}
    (h : (Except.error (AsmError.err ⟨t, c⟩) : Except AsmError α) = .error (.err e)) :
    e.code = c := by
  injection h with h1
  injection h1 with h2
  exact (congrArg AssemblyError.code h2).symm

/-- A non-comma token can make `stepToken` fail only with codes that are not
comma-related. -/
theorem stepToken_not_comma_code (byteLen : Nat) (acc : LineAcc) (t : Token)
    (e : AssemblyError) (ht : t.kind ≠ TokenKind.Comma)
    (hs : stepToken byteLen acc t = .error (.err e)) :
    ¬ commaOnlyCode e.code := by
  unfold stepToken at hs
  split at hs <;>
    first
      | exact absurd (by assumption) ht
      | skip
  all_goals repeat' split at hs
  all_goals try (rw [error_err_code hs]; simp [commaOnlyCode])
  all_goals simp at hs

/-- The token loop of `translate_buffer` over a comma-free buffer never fails
with a comma-related code. -/
theorem foldlM_not_comma_code (buffer : List Token) :
    ∀ (acc : LineAcc) (byteLen : Nat) (e : AssemblyError),
    (∀ t ∈ buffer, t.kind ≠ TokenKind.Comma) →
    buffer.foldlM (stepToken byteLen) acc = .error (.err e) →
    ¬ commaOnlyCode e.code := by
  induction buffer with
  | nil =>
    intro acc byteLen e _ hf
    simp [List.foldlM, pure, Except.pure] at hf
  | cons t rest ih =>
    intro acc byteLen e hnc hf
    rw [List.foldlM_cons] at hf
    rcases hs : stepToken byteLen acc t with f | acc'
    · rw [hs, except_error_bind] at hf
      obtain rfl : f = .err e := by
        simpa using hf
      exact stepToken_not_comma_code byteLen acc t e (hnc t (by simp)) hs
    · rw [hs, except_ok_bind] at hf
      exact ih acc' byteLen e (fun x hx => hnc x (by simp [hx])) hf

/-- `finishLine` never fails with a comma-related code. -/
theorem finishLine_not_comma_code (acc : LineAcc) (byteCode : List ByteCode)
    (e : AssemblyError) (hf : finishLine acc byteCode = .error (.err e)) :
    ¬ commaOnlyCode e.code := by
  unfold finishLine at hf
  rcases hsm : acc.stmtMnemonic with _ | ⟨mt, mn⟩ <;> simp only [hsm] at hf
  · simp at hf
  · split at hf
    · rw [error_err_code hf]
      simp [commaOnlyCode]
    · rcases h0 : acc.slot0 with _ | ⟨dt, dp⟩ <;>
        rcases h1 : acc.slot1 with _ | ⟨ot, op⟩ <;>
        simp only [h0, h1] at hf
      · simp at hf
      · simp at hf
      · rcases dp with n | p | r | _ | m | r2 | _ | lab <;>
          first
            | (rw [error_err_code hf]; simp [commaOnlyCode])
            | simp at hf
      · rcases henc : (Instruction.new.encodeMnemonic mn).tryEncodeDataFlow op dp
          with _ | res
        · simp only [henc] at hf
          simp at hf
        · rcases res with c | inst2
          · rcases c <;> simp only [henc] at hf <;>
              first
                | (rw [error_err_code hf]; simp [commaOnlyCode])
                | simp at hf
          · simp only [henc] at hf
            simp at hf

/-- C9: the comma between two operands is optional and meaningless on the
success path — for a two-operand mnemonic, the token buffer with the comma
translates exactly like the buffer without it (identical emitted byte-code,
labels, and, on failure, identical error) — and the comma-related errors
`NoMnemonic`, `UnexpectedComma` and `ExcessiveOperands` can only arise from
a `Comma` token actually present in the line's buffer. -/
theorem comma_optional_and_comma_errors_need_comma :
    (∀ (m : Mnemonic) (d o : Primitive)
       (ms me ml ds de dl cs ce cl os oe ol : Nat)
       (byteCode : List ByteCode) (labels : List (String × Nat)),
       m.operandsRequired = 2 →
       translateBuffer
         [⟨.Mnemonic m, ms, me, ml⟩, ⟨.Operand d, ds, de, dl⟩,
          ⟨.Comma, cs, ce, cl⟩, ⟨.Operand o, os, oe, ol⟩] byteCode labels =
       translateBuffer
         [⟨.Mnemonic m, ms, me, ml⟩, ⟨.Operand d, ds, de, dl⟩,
          ⟨.Operand o, os, oe, ol⟩] byteCode labels) ∧
    (∀ (buffer : List Token) (byteCode : List ByteCode)
       (labels : List (String × Nat)) (e : AssemblyError),
       (∀ t ∈ buffer, t.kind ≠ TokenKind.Comma) →
       translateBuffer buffer byteCode labels = .error (.err e) →
       ¬ commaOnlyCode e.code) := by
  constructor
  · intro m d o ms me ml ds de dl cs ce cl os oe ol byteCode labels hm
    cases m <;> first
      | exact absurd hm (by decide)
      | rfl
  · intro buffer byteCode labels e hnc ht
    unfold translateBuffer at ht
    rcases hf : buffer.foldlM (stepToken byteCode.length)
        ⟨labels, 0, 0, none, none, none⟩ with f | acc
    · rw [hf] at ht
      obtain rfl : f = .err e := by simpa using ht
      exact foldlM_not_comma_code buffer _ _ e hnc hf
    · rw [hf] at ht
      exact finishLine_not_comma_code acc byteCode e ht

/-- Witness for C9: `mov al, bl` and `mov al bl` translate identically, and a
comma-free buffer fails (here: arity) with a non-comma error code. -/
theorem comma_optional_witness :
    Mnemonic.Mov.operandsRequired = 2 ∧
    translateBuffer
      [⟨.Mnemonic .Mov, 0, 3, 1⟩, ⟨.Operand .Accumulator, 4, 6, 1⟩,
       ⟨.Comma, 5, 6, 1⟩, ⟨.Operand (.Register .B), 8, 10, 1⟩] [] [] =
    translateBuffer
      [⟨.Mnemonic .Mov, 0, 3, 1⟩, ⟨.Operand .Accumulator, 4, 6, 1⟩,
       ⟨.Operand (.Register .B), 8, 10, 1⟩] [] [] ∧
    ((∀ t ∈ [(⟨.Mnemonic .Jmp, 0, 3, 1⟩ : Token)], t.kind ≠ TokenKind.Comma) ∧
     ¬ commaOnlyCode (ErrorCode.NotEnoughOperands 0 1)) :=
  ⟨by decide,
   comma_optional_and_comma_errors_need_comma.1 .Mov .Accumulator (.Register .B)
     0 3 1 4 6 1 5 6 1 8 10 1 [] [] (by decide),
   by decide,
   comma_optional_and_comma_errors_need_comma.2
     [⟨.Mnemonic .Jmp, 0, 3, 1⟩] [] [] ⟨⟨.Mnemonic .Jmp, 0, 3, 1⟩, .NotEnoughOperands 0 1⟩
     (by decide) (by rfl)⟩

/-- If some bit below 3 is clear in both masks of the final `encode_main`,
that bit is clear in the resulting main byte, so the byte cannot be `7`. -/
theorem encodeMain_withPage_main_ne_seven (u : Instruction) (A B pg j : Nat)
    (hA : A.testBit j = false) (hB : B.testBit j = false)
    (h7 : Nat.testBit 7 j = true) :
    ((u.encodeMain A B).withPage pg).main ≠ 7 := by
  intro he
  have hbit : Nat.testBit ((u.encodeMain A B).withPage pg).main j = false := by
    simp [Instruction.encodeMain, Instruction.withPage, Nat.testBit_lor,
      Nat.testBit_land, hA, hB]
  rw [he, h7] at hbit
  exact Bool.noConfusion hbit

/-- Every successful data-flow encoding leaves data-flow bits different from
`111`, so the resulting main byte is never the page-turn byte — for any
starting instruction whatsoever. -/
theorem tryEncodeDataFlow_main_ne_page_turn (i : Instruction) (o d : Primitive)
    (i' : Instruction) (h : i.tryEncodeDataFlow o d = some (.ok i')) :
    i'.main ≠ 7 := by
  rcases o with n | po | rg | _ | mm | rg2 | _ | lb
  all_goals try rcases po with pn | pn
  all_goals rcases d with dn | pd | rd | _ | dm | rd2 | _ | dl
  all_goals try rcases pd with qn | qn
  all_goals simp only [Instruction.tryEncodeDataFlow] at h
  all_goals try (rcases hp : i.encodePort (Port.Input pn) with _ | u <;>
    simp only [hp] at h)
  all_goals try (rcases hp : i.encodePort (Port.Output qn) with _ | u <;>
    simp only [hp] at h)
  all_goals
    try (obtain rfl : _ = i' := by simpa using h
         first
           | exact encodeMain_withPage_main_ne_seven _ _ _ _ 0
               (by decide) (by decide) (by decide)
           | exact encodeMain_withPage_main_ne_seven _ _ _ _ 1
               (by decide) (by decide) (by decide)
           | exact encodeMain_withPage_main_ne_seven _ _ _ _ 2
               (by decide) (by decide) (by decide))
  all_goals simp at h

/-- C10: for every instruction built by `encode_mnemonic` (from a fresh
instruction, as the parser does) and every successful `try_encode_data_flow`
on top of it, the resulting main byte differs from the page-turn byte
`0b00000111`: successful flows never write `111` into bits 2–0, so a
page-turn prefix is always distinguishable from a main byte. -/
theorem encoded_main_byte_ne_page_turn (m : Mnemonic) (o d : Primitive)
    (i' : Instruction)
    (h : (Instruction.new.encodeMnemonic m).tryEncodeDataFlow o d =
      some (.ok i')) :
    i'.main ≠ Instruction.DECODER_PAGE_TURN :=
  tryEncodeDataFlow_main_ne_page_turn _ o d i' h

/-- Witness for C10: `mov al, 42` (origin `Number 42`, destination the
accumulator) encodes successfully, and its main byte `192` is not `7`. -/
theorem encoded_main_byte_ne_page_turn_witness :
    (Instruction.new.encodeMnemonic .Mov).tryEncodeDataFlow (.Number 42) .Accumulator =
      some (.ok ⟨1, 192, some 42, none⟩) ∧
    (⟨1, 192, some 42, none⟩ : Instruction).main ≠ Instruction.DECODER_PAGE_TURN :=
  ⟨rfl, encoded_main_byte_ne_page_turn .Mov (.Number 42) .Accumulator
    ⟨1, 192, some 42, none⟩ rfl⟩

set_option maxRecDepth 8192 in
/-- C5: `try_encode_data_flow` implements exactly the 12-row data-flow table
of spec §4.2 (written out in `dataFlowSpecTable` from the spec's words):
each listed origin/destination pair ORs the stated flow bits into bits 2–0,
*replaces* the decoder page with the stated override (including overrides
back to page 0), and applies the stated side effects — the register or port
number into bits 4–3, `rom` set to the literal byte, `ram` set to the
memory word; a listed origin with an unlisted destination fails
`BadDestination`, and an unlisted origin (`Label`,
`DynamicMemoryAccumulator`, and also output ports) fails `BadOrigin`. -/
theorem tryEncodeDataFlow_matches_spec_table (i : Instruction)
    (origin dest : Primitive) (hm : i.main < 256)
    (ho : portNumsOk origin) (hd : portNumsOk dest) :
    i.tryEncodeDataFlow origin dest = some (dataFlowSpecTable i origin dest) := by
  obtain ⟨p, y, rm, w⟩ := i
  replace hm : y < 256 := hm
  rcases origin with n | po | rg | _ | mm | rg2 | _ | lb
  all_goals try rcases po with pn | pn
  all_goals rcases dest with dn | pd | rd | _ | dm | rd2 | _ | dl
  all_goals try rcases pd with qn | qn
  all_goals try rcases rg with _ | _ | _ | _
  all_goals try rcases rg2 with _ | _ | _ | _
  all_goals try rcases rd with _ | _ | _ | _
  all_goals try rcases rd2 with _ | _ | _ | _
  all_goals try rcases pn with _ | _ | _ | _ | pk
  all_goals try rcases qn with _ | _ | _ | _ | qk
  all_goals
    try (exact absurd (by simpa [portNumsOk, Port.portNumber] using ho) (by omega))
  all_goals
    try (exact absurd (by simpa [portNumsOk, Port.portNumber] using hd) (by omega))
  all_goals
    simp only [Instruction.tryEncodeDataFlow, dataFlowSpecTable,
      Instruction.encodePort, Instruction.encodePortNumber, Port.portNumber,
      Instruction.encodeRegister, Instruction.encodeMain, Instruction.withPage,
      registerSelector, setFlowBits, setSelectorBits, Option.some.injEq,
      Except.ok.injEq, Instruction.mk.injEq, Option.some_bind, Option.none_bind,
      and_true, true_and]
  all_goals revert y
  all_goals decide

/-- Witness for C5 at the `mov al, 42` statement: starting from the
`Mov`-encoded instruction, origin `Number 42` and destination the
accumulator produce exactly the spec row `ROM → Acc` (page 1, `rom` set). -/
theorem tryEncodeDataFlow_matches_spec_table_witness :
    ((⟨0, 192, none, none⟩ : Instruction).main < 256) ∧
    portNumsOk (.Number 42) ∧ portNumsOk .Accumulator ∧
    (⟨0, 192, none, none⟩ : Instruction).tryEncodeDataFlow (.Number 42) .Accumulator =
      some (dataFlowSpecTable ⟨0, 192, none, none⟩ (.Number 42) .Accumulator) :=
  ⟨by decide, by decide, by decide,
   tryEncodeDataFlow_matches_spec_table ⟨0, 192, none, none⟩ (.Number 42) .Accumulator
     (by decide) (by decide) (by decide)⟩

end Mpp
